import Mathlib

/-!
Shallow embedding of `scraper.py`: an attendance scraper that paginates a
web table backwards, classifies per-cell attendance markers, reshapes the
long-format records into one wide table per subject, and destructively
republishes each subject's table to a store.

Statuses are the literal strings the code uses: "P", "A", "NA", "Unknown".
External effects (browser, Supabase) are modelled as explicit data: pages
are lists of header strings and cell rows, and the store is a trace of
attempted operations together with a failure oracle saying which operation
raises.
-/

namespace Scraper

/-- A rendered table cell as the in-page extraction script sees it:
whether it contains an `svg.lucide-check`, an `svg.lucide-x`, and its
`innerText`. -/
structure Cell where
  hasCheck : Bool
  hasX : Bool
  text : String
deriving Repr, DecidableEq

/-- Whitespace trimming from both ends of a string, as JS `.trim()` /
Python `.strip()` do. -/
def pyTrim (s : String) : String :=
  String.mk (((s.toList.dropWhile Char.isWhitespace).reverse.dropWhile Char.isWhitespace).reverse)

/-- Per-cell status classification, from the in-page script
(scraper.py lines 174-177): `status = 'Unknown'`, overridden to `'P'` on a
check icon, else `'A'` on an x icon, else `'NA'` on trimmed text "NA". -/
def classify (cell : Cell) : String :=
  if cell.hasCheck then "P"
  else if cell.hasX then "A"
  else if pyTrim cell.text = "NA" then "NA"
  else "Unknown"

/-- The regex `^\d{2}\/\d{2}\/\d{4}$` from the header scan
(scraper.py line 160): exactly two digits, slash, two digits, slash,
four digits. -/
def matchesDatePattern (s : String) : Bool :=
  match s.toList with
  | [d1, d2, s1, m1, m2, s2, y1, y2, y3, y4] =>
    d1.isDigit && d2.isDigit && s1 = '/' && m1.isDigit && m2.isDigit &&
    s2 = '/' && y1.isDigit && y2.isDigit && y3.isDigit && y4.isDigit
  | _ => false

/-- `sanitize_column_name` (scraper.py lines 34-36): Python
`name.replace('/', '_')`; for a single-character pattern this is a
character-wise map. -/
def sanitize_column_name (name : String) : String :=
  String.mk (name.toList.map (fun c => if c = '/' then '_' else c))

/-- Collapse every run of two or more underscores to a single underscore;
embedding of `re.sub(r'__+', '_', name)` (each maximal run of length >= 2
is replaced by one underscore). -/
def collapseUnderscores : List Char → List Char
  | [] => []
  | c :: rest =>
    match collapseUnderscores rest with
    | [] => [c]
    | d :: ds => if c = '_' && d = '_' then d :: ds else c :: d :: ds

/-- `sanitize_table_name` (scraper.py lines 28-32): replace every
non-alphanumeric, non-underscore character by `_`, collapse repeated
underscores, strip leading/trailing underscores, lowercase. -/
def sanitize_table_name (name : String) : String :=
  let cs := name.toList.map (fun c => if c.isAlphanum || c = '_' then c else '_')
  let cs := collapseUnderscores cs
  let cs := ((cs.dropWhile (fun c => c = '_')).reverse.dropWhile (fun c => c = '_')).reverse
  String.mk (cs.map Char.toLower)

/-- Characters before the first occurrence of `sep` (the whole list when
`sep` never occurs); embedding of Python `s.split(sep)[0]`. -/
def beforeFirst (sep : List Char) : List Char → List Char
  | [] => []
  | c :: rest => if sep.isPrefixOf (c :: rest) then [] else c :: beforeFirst sep rest

/-- Subject name from a course label (scraper.py line 268):
`course_name_with_code.split(' (')[0].strip()`. -/
def subjectNameOf (label : String) : String :=
  pyTrim (String.mk (beforeFirst [' ', '('] label.toList))

/-! ## Page record extraction (scraper.py lines 154-184, in-page script) -/

/-- One record produced by the in-page extraction script: `roll_no` from
cell 0, `student_name` from cell 1, `attendance_data` an insertion-ordered
association list from date string to status string. -/
structure ExtractedRecord where
  roll_no : String
  student_name : String
  attendance_data : List (String × String)
deriving Repr, DecidableEq

/-- JS object update `m[k] = v`: an existing key keeps its position and
gets the new value; a new key is appended (string keys of this shape keep
insertion order). -/
def insertUpdate (m : List (String × Nat)) (k : String) (v : Nat) : List (String × Nat) :=
  if m.any (fun p => p.1 = k) then
    m.map (fun p => if p.1 = k then (k, v) else p)
  else m ++ [(k, v)]

/-- `dateHeaderMap` from the in-page script: for each header cell in
order, if its trimmed text matches the date pattern, map that text to the
header's index. -/
def dateHeaderMap (headers : List String) : List (String × Nat) :=
  headers.enum.foldl
    (fun m p => if matchesDatePattern (pyTrim p.2) then insertUpdate m (pyTrim p.2) p.1 else m)
    []

/-- Per-row extraction: a row with fewer than 2 cells is skipped
(`if (cells.length < 2) return;`); otherwise cell 0 is the roll number and
cell 1 the student name (both trimmed), and for every date column whose
cell index exists in the row, the cell is classified. -/
def extractRecord (dmap : List (String × Nat)) : List Cell → Option ExtractedRecord
  | c0 :: c1 :: rest => some
      { roll_no := pyTrim c0.text
        student_name := pyTrim c1.text
        attendance_data :=
          dmap.filterMap (fun p => ((c0 :: c1 :: rest).get? p.2).map (fun c => (p.1, classify c))) }
  | _ => none

/-- `extractPage`: the whole in-page script, over a page given as its
header texts and its body rows of cells. -/
def extractPage (headers : List String) (rows : List (List Cell)) : List ExtractedRecord :=
  rows.filterMap (extractRecord (dateHeaderMap headers))

/-! ## Long format and pivot (upload_to_supabase, scraper.py lines 76-110) -/

/-- A scraped record as `upload_to_supabase` consumes it: the extracted
fields plus the section tag set by `run_scraper` (the code reads it with
`record.get('section', 'Unknown')`, hence the `Option`). -/
structure UploadRecord where
  roll_no : String
  student_name : String
  sec : Option String
  attendance_data : List (String × String)
deriving Repr, DecidableEq

/-- One row of `long_format_data` (scraper.py lines 85-91). -/
structure LongRow where
  Roll_No : String
  Name : String
  Section : String
  Date : String
  Status : String
deriving Repr, DecidableEq

/-- Flattening of records into `long_format_data`: one long row per
(record, attendance entry) pair, in input order. -/
def longFormat (records : List UploadRecord) : List LongRow :=
  records.flatMap (fun r =>
    r.attendance_data.map (fun p =>
      { Roll_No := r.roll_no, Name := r.student_name,
        Section := r.sec.getD "Unknown", Date := p.1, Status := p.2 }))

/-- The pivot row key `(Roll_No, Name, Section)`. -/
abbrev RowKey := String × String × String

/-- Key of a long row. -/
def LongRow.key (r : LongRow) : RowKey := (r.Roll_No, r.Name, r.Section)

/-- One cell of the pivot table: `pivot_table(..., aggfunc='first')` keeps,
for each (row key, date) group, the first value in input order; a group
with no rows yields a missing cell, later emitted as an explicit null. -/
def pivotCell (rows : List LongRow) (k : RowKey) (d : String) : Option String :=
  (rows.find? (fun r => decide (r.key = k) && decide (r.Date = d))).map (fun r => r.Status)

/-- Lexicographic (code-point) comparison of character lists, the order
Python and pandas sort strings by. -/
def lexLeChars : List Char → List Char → Bool
  | [], _ => true
  | _ :: _, [] => false
  | a :: as, b :: bs =>
    if a.toNat < b.toNat then true
    else if a.toNat = b.toNat then lexLeChars as bs
    else false

/-- Lexicographic order on strings (Python's and pandas' default string
sort), as a `Prop` relation for `insertionSort`. -/
def strLE (a b : String) : Prop := lexLeChars a.toList b.toList = true

instance : DecidableRel strLE := fun a b =>
  inferInstanceAs (Decidable (lexLeChars a.toList b.toList = true))

/-- Split a character list on `'/'`. -/
def splitOnSlash : List Char → List (List Char)
  | [] => [[]]
  | c :: rest =>
    if c = '/' then [] :: splitOnSlash rest
    else
      match splitOnSlash rest with
      | [] => [[c]]
      | g :: gs => (c :: g) :: gs

/-- Numeric value of a nonempty all-digit character list. -/
def digitsToNat? (cs : List Char) : Option Nat :=
  if cs ≠ [] ∧ cs.all Char.isDigit then
    some (cs.foldl (fun n c => n * 10 + (c.toNat - 48)) 0)
  else none

/-- Calendar sort key of a `DD/MM/YYYY` string, the key
`pd.to_datetime(d, format='%d/%m/%Y')` sorts by: year, then month, then
day. -/
def calKey (s : String) : Nat :=
  match (splitOnSlash s.toList).map digitsToNat? with
  | [some d, some m, some y] => y * 10000 + m * 100 + d
  | _ => 0

/-- Comparison by calendar key. -/
def calLE (a b : String) : Prop := calKey a ≤ calKey b

instance : DecidableRel calLE := fun a b => inferInstanceAs (Decidable (calKey a ≤ calKey b))

instance : IsTotal String calLE := ⟨fun a b => Nat.le_total (calKey a) (calKey b)⟩

instance : IsTrans String calLE := ⟨fun _ _ _ h1 h2 => Nat.le_trans h1 h2⟩

/-- The pivot's column list before re-sorting: the distinct dates of the
long rows, sorted as pandas sorts columns (lexicographically); both sorts
in this pipeline are stable, as Python's are. -/
def pivotDates (rows : List LongRow) : List String :=
  List.insertionSort strLE (rows.map (fun r => r.Date)).dedup

/-- `sorted_date_cols` (scraper.py line 103): the date columns re-sorted
ascending by calendar date. -/
def sortedDateCols (rows : List LongRow) : List String :=
  List.insertionSort calLE (pivotDates rows)

/-- The pivot's row index: the distinct `(Roll_No, Name, Section)` triples,
sorted lexicographically as pandas sorts a MultiIndex. -/
def keyLE (a b : RowKey) : Prop :=
  (strLE a.1 b.1 ∧ a.1 ≠ b.1) ∨
    (a.1 = b.1 ∧ ((strLE a.2.1 b.2.1 ∧ a.2.1 ≠ b.2.1) ∨ (a.2.1 = b.2.1 ∧ strLE a.2.2 b.2.2)))

instance : DecidableRel keyLE := fun a b => by unfold keyLE; infer_instance

/-- Row keys of the final wide table: one per distinct triple. -/
def pivotKeys (rows : List LongRow) : List RowKey :=
  List.insertionSort keyLE (rows.map LongRow.key).dedup

/-- Column names of `df_final` after `reset_index()`: the identifier
columns, then the calendar-sorted date columns with `/` rewritten to `_`
(scraper.py lines 102-106). -/
def finalColumns (rows : List LongRow) : List String :=
  "Roll_No" :: "Name" :: "Section" :: (sortedDateCols rows).map sanitize_column_name

/-- One row of `records_to_upload` (scraper.py line 110): identifier
cells, then one cell per date column, missing values as explicit `none`
(`df_final.where(pd.notna(df_final), None)`). -/
def finalRow (rows : List LongRow) (k : RowKey) : List (String × Option String) :=
  ("Roll_No", some k.1) :: ("Name", some k.2.1) :: ("Section", some k.2.2) ::
    (sortedDateCols rows).map (fun d => (sanitize_column_name d, pivotCell rows k d))

/-- `records_to_upload`: the rows handed to the store insert. -/
def records_to_upload (records : List UploadRecord) : List (List (String × Option String)) :=
  (pivotKeys (longFormat records)).map (finalRow (longFormat records))

/-- `columns_definitions` (scraper.py lines 48-54): every column is TEXT,
and `Roll_No` alone is declared the primary key. -/
def columns_definitions (cols : List String) : List (String × String) :=
  cols.map (fun c => if c = "Roll_No" then (c, "TEXT PRIMARY KEY") else (c, "TEXT"))

/-! ## Bidirectional pager (get_data_for_course, scraper.py lines 120-201)

A synthetic N-page course: pages are numbered 1..N, `d i` is the record
list extracted on page `i`, the Next control is enabled exactly on pages
below N, the Previous control exactly on pages above 1. -/

/-- Phase 1, seek to the last page: while the Next button is enabled
(current page < N), click it. Never calls the extractor. Returns the page
reached. -/
def seekEnd (N cur : Nat) : Nat :=
  if cur < N then seekEnd N (cur + 1) else cur
termination_by N - cur

/-- Phase 2, walk backward: extract the current page and append; while the
Previous button is enabled (current page > 1), click it and repeat.
Returns the accumulated records and the pages visited, in visit order. -/
def walkBack (d : Nat → List α) (cur : Nat) : List α × List Nat :=
  if _h : 1 < cur then
    let rec' := walkBack d (cur - 1)
    (d cur ++ rec'.1, cur :: rec'.2)
  else (d cur, [cur])
termination_by cur

/-- `get_data_for_course` on the synthetic course: seek to the end from
the landing page `start`, then walk backward collecting records. -/
def collectCourse (N : Nat) (d : Nat → List α) (start : Nat) : List α × List Nat :=
  walkBack d (seekEnd N start)

/-! ## Store effects and failure semantics (scraper.py lines 39-74,
109-117, 293-311)

Store calls are modelled as a trace of attempted operations; a failure
oracle `fail` says which operation raises an exception. Each modelled
function returns the operations it attempted and whether it completed
without an uncaught exception. -/

/-- One operation attempted against the store, tagged with the table
name. -/
inductive StoreOp where
  | dropTable : String → StoreOp
  | createTable : String → StoreOp
  | enableRLS : String → StoreOp
  | createPolicy : String → StoreOp
  | insertRows : String → StoreOp
deriving Repr, DecidableEq

/-- `recreate_table_for_upload` (scraper.py lines 39-74): drop (outside
the try, so a failure propagates), then create, enable RLS and create the
access policy inside a try whose handler logs and re-raises. Every failure
escapes the function. -/
def recreate_table_for_upload (fail : StoreOp → Bool) (tn : String) : List StoreOp × Bool :=
  if fail (.dropTable tn) then ([.dropTable tn], false)
  else if fail (.createTable tn) then ([.dropTable tn, .createTable tn], false)
  else if fail (.enableRLS tn) then
    ([.dropTable tn, .createTable tn, .enableRLS tn], false)
  else if fail (.createPolicy tn) then
    ([.dropTable tn, .createTable tn, .enableRLS tn, .createPolicy tn], false)
  else ([.dropTable tn, .createTable tn, .enableRLS tn, .createPolicy tn], true)

/-- `upload_to_supabase` (scraper.py lines 76-117): return early with no
store call when the record list is empty or flattening yields no long
rows; otherwise recreate the table (failures propagate) and then insert,
whose failure is caught and logged (lines 113-117), so the function still
returns normally. -/
def upload_to_supabase (fail : StoreOp → Bool) (subject_name : String)
    (records : List UploadRecord) : List StoreOp × Bool :=
  if records.isEmpty then ([], true)
  else if (longFormat records).isEmpty then ([], true)
  else
    let tn := sanitize_table_name subject_name
    match recreate_table_for_upload fail tn with
    | (ops, true) => (ops ++ [.insertRows tn], true)
    | (ops, false) => (ops, false)

/-- The `__main__` upload loop (scraper.py lines 304-305): every subject
is uploaded in order inside one run-level try (line 297), so the first
uncaught exception aborts the rest of the loop; the run-level handler
(line 310) only logs. -/
def uploadAll (fail : StoreOp → Bool) :
    List (String × List UploadRecord) → List StoreOp × Bool
  | [] => ([], true)
  | (n, recs) :: rest =>
    match upload_to_supabase fail n recs with
    | (ops, true) =>
      let r := uploadAll fail rest
      (ops ++ r.1, r.2)
    | (ops, false) => (ops, false)

/-- The table name an operation touches. -/
def StoreOp.table : StoreOp → String
  | .dropTable t => t
  | .createTable t => t
  | .enableRLS t => t
  | .createPolicy t => t
  | .insertRows t => t

/-! ## Concrete example inputs used by the theorems below -/

/-- One student with the three dates of the spec's date-ordering test, in
scraped (unsorted) order. -/
def dateOrderRecords : List UploadRecord :=
  [{ roll_no := "1", student_name := "X", sec := some "Section A",
     attendance_data := [("15/01/2024", "P"), ("02/01/2024", "A"), ("20/12/2023", "NA")] }]

/-- The same roll number appearing in two different sections. -/
def duplicateRollRecords : List UploadRecord :=
  [{ roll_no := "1", student_name := "X", sec := some "Section A",
     attendance_data := [("01/01/2024", "P")] },
   { roll_no := "1", student_name := "X", sec := some "Section B",
     attendance_data := [("01/01/2024", "A")] }]

/-- A subject whose records carry no date-keyed attendance at all. -/
def emptyAttendanceRecords : List UploadRecord :=
  [{ roll_no := "1", student_name := "X", sec := none, attendance_data := [] }]

/-- A minimal nonempty record list for one subject. -/
def oneRecord : List UploadRecord :=
  [{ roll_no := "1", student_name := "X", sec := some "Section A",
     attendance_data := [("01/01/2024", "P")] }]

/-- A store in which creating table `a` (the sanitized name of subject
`A`) raises and every other operation succeeds. -/
def schemaFailOracle : StoreOp → Bool := fun op => decide (op = .createTable "a")

/-- Two subjects uploaded in order: `A` then `B`. -/
def twoSubjects : List (String × List UploadRecord) := [("A", oneRecord), ("B", oneRecord)]

/-- A long row, and below it a second row with the same key and date but a
different status. -/
def firstStatusRow : LongRow :=
  { Roll_No := "1", Name := "X", Section := "Section A", Date := "01/01/2024", Status := "P" }

/-- The conflicting later row for the same key and date. -/
def conflictingStatusRow : LongRow :=
  { Roll_No := "1", Name := "X", Section := "Section A", Date := "01/01/2024", Status := "A" }

/-- Example page headers: two non-date columns, a date column with
surrounding whitespace, and a malformed date. -/
def exampleHeaders : List String := ["Roll No", "Name", " 01/02/2024 ", "1/2/2024"]

/-- Example body rows: one well-formed row and one with a single cell. -/
def exampleRows : List (List Cell) :=
  [[{ hasCheck := false, hasX := false, text := "21 " },
    { hasCheck := false, hasX := false, text := " Alice" },
    { hasCheck := true, hasX := false, text := "" },
    { hasCheck := false, hasX := true, text := "" }],
   [{ hasCheck := false, hasX := false, text := "lone" }]]

/-- The record the example page extracts. -/
def exampleRecord : ExtractedRecord :=
  { roll_no := "21", student_name := "Alice", attendance_data := [("01/02/2024", "P")] }

/-- The fixed status vocabulary the code stores. -/
def statusStrings : List String := ["P", "A", "NA", "Unknown"]

/-! ## Theorems -/

/-- C3: for every table cell, `classify` is a pure function of the cell's
content and returns, first match wins: `"P"` (Present) when the check
marker is present, else `"A"` (Absent) when the x marker is present, else
`"NA"` (NotApplicable) when the trimmed text equals exactly `"NA"`, else
`"Unknown"`; in particular a cell carrying both a check and an x marker is
classified `"P"` (Present). -/
theorem classify_precedence (c : Cell) :
    (c.hasCheck = true → classify c = "P") ∧
    (c.hasCheck = false → c.hasX = true → classify c = "A") ∧
    (c.hasCheck = false → c.hasX = false → pyTrim c.text = "NA" → classify c = "NA") ∧
    (c.hasCheck = false → c.hasX = false → pyTrim c.text ≠ "NA" → classify c = "Unknown") ∧
    (c.hasCheck = true → c.hasX = true → classify c = "P") := by
  obtain ⟨ck, x, t⟩ := c
  refine ⟨?_, ?_, ?_, ?_, ?_⟩ <;> intros <;> simp_all [classify]

/-- Witness for C3: a cell carrying both markers and the text `NA` is
classified `"P"`. -/
theorem classify_precedence_witness :
    classify { hasCheck := true, hasX := true, text := "NA" } = "P" :=
  (classify_precedence { hasCheck := true, hasX := true, text := "NA" }).1 rfl

/-- C7: the course label `"Operating Systems (CS301)"` yields the subject
name `"Operating Systems"` (trailing parenthetical code stripped and
trimmed) and the published table name `"operating_systems"`
(non-alphanumeric collapsed to `_`, repeats collapsed, underscores
trimmed, lowercased). -/
theorem name_derivation :
    subjectNameOf "Operating Systems (CS301)" = "Operating Systems" ∧
    sanitize_table_name (subjectNameOf "Operating Systems (CS301)") = "operating_systems" := by
  decide

/-- C5: in every reshaped subject table the date columns are sorted
ascending by calendar date (`DD/MM/YYYY` parsed as day, month, year), the
emitted column names contain no `/` (each is rewritten to `_`), the
emitted columns are exactly the identifier columns followed by the
sanitized sorted dates, and on the input dates 15/01/2024, 02/01/2024,
20/12/2023 the columns come out as 20/12/2023, 02/01/2024, 15/01/2024
with slashes rewritten. -/
theorem date_column_ordering :
    (∀ rows : List LongRow, List.Sorted calLE (sortedDateCols rows)) ∧
    (∀ name : String, '/' ∉ (sanitize_column_name name).toList) ∧
    (∀ rows : List LongRow,
      finalColumns rows
        = "Roll_No" :: "Name" :: "Section" :: (sortedDateCols rows).map sanitize_column_name) ∧
    finalColumns (longFormat dateOrderRecords)
      = ["Roll_No", "Name", "Section", "20_12_2023", "02_01_2024", "15_01_2024"] := by
  refine ⟨?_, ?_, fun _ => rfl, by decide⟩
  · intro rows
    exact List.sorted_insertionSort calLE (pivotDates rows)
  · intro name hmem
    simp only [sanitize_column_name, String.toList, List.mem_map] at hmem
    obtain ⟨c, _, hc⟩ := hmem
    by_cases h : c = '/' <;> simp [h] at hc

/-- Witness for C5: on the concrete three-date input the emitted date
columns are sorted by calendar date. -/
theorem date_column_ordering_witness :
    List.Sorted calLE (sortedDateCols (longFormat dateOrderRecords)) :=
  date_column_ordering.1 (longFormat dateOrderRecords)

/-- The date of any long row is one of the wide table's date columns. -/
theorem date_mem_sortedDateCols {rows : List LongRow} {r : LongRow} (hr : r ∈ rows) :
    r.Date ∈ sortedDateCols rows := by
  unfold sortedDateCols pivotDates
  rw [(List.perm_insertionSort calLE _).mem_iff, (List.perm_insertionSort strLE _).mem_iff,
    List.mem_dedup]
  exact List.mem_map_of_mem _ hr

/-- C4: when two long rows supply a status for the same
`(Roll_No, Name, Section, Date)` key, the pivot keeps the first status in
input order: if no row before `r1` shares its key and date, the wide
table's cell for `r1`'s key and date is `r1`'s status, and that cell
appears in the emitted row for `r1`'s key under the sanitized date column
name, regardless of any conflicting rows after `r1`. -/
theorem reshape_first_wins (pre post : List LongRow) (r1 : LongRow)
    (hfirst : ∀ r ∈ pre, ¬(r.key = r1.key ∧ r.Date = r1.Date)) :
    pivotCell (pre ++ r1 :: post) r1.key r1.Date = some r1.Status ∧
    (sanitize_column_name r1.Date, some r1.Status)
      ∈ finalRow (pre ++ r1 :: post) r1.key := by
  have hcell : pivotCell (pre ++ r1 :: post) r1.key r1.Date = some r1.Status := by
    induction pre with
    | nil => simp [pivotCell, List.find?]
    | cons a as ih =>
      have ha := hfirst a (by simp)
      have hfalse : (decide (a.key = r1.key) && decide (a.Date = r1.Date)) = false := by
        by_cases h1 : a.key = r1.key <;> by_cases h2 : a.Date = r1.Date <;> simp_all
      simp only [pivotCell, List.cons_append, List.find?, hfalse]
      exact ih (fun r hr => hfirst r (List.mem_cons_of_mem a hr))
  refine ⟨hcell, ?_⟩
  have hdate : r1.Date ∈ sortedDateCols (pre ++ r1 :: post) :=
    date_mem_sortedDateCols (by simp)
  unfold finalRow
  refine List.mem_cons_of_mem _ (List.mem_cons_of_mem _ (List.mem_cons_of_mem _ ?_))
  exact List.mem_map.mpr ⟨r1.Date, hdate, by rw [hcell]⟩

/-- Witness for C4: with a conflicting second row for the same key and
date, the pivot cell holds the first row's status `"P"`, not `"A"`. -/
theorem reshape_first_wins_witness :
    pivotCell [firstStatusRow, conflictingStatusRow] firstStatusRow.key firstStatusRow.Date
      = some "P" ∧
    (sanitize_column_name firstStatusRow.Date, some "P")
      ∈ finalRow [firstStatusRow, conflictingStatusRow] firstStatusRow.key :=
  reshape_first_wins [] [conflictingStatusRow] firstStatusRow (by simp)

/-- C8: a subject whose records flatten to zero long-format rows (an empty
record list, or records carrying no date-keyed attendance) produces no
store call at all: no drop, no create, no policy, no insert. -/
theorem empty_subject_skip (fail : StoreOp → Bool) (n : String)
    (records : List UploadRecord) (h : longFormat records = []) :
    upload_to_supabase fail n records = ([], true) := by
  unfold upload_to_supabase
  by_cases he : records.isEmpty <;> simp [he, h]

/-- Witness for C8: a record list with no attendance entries is skipped
even when every store operation would fail. -/
theorem empty_subject_skip_witness :
    upload_to_supabase (fun _ => true) "Maths" emptyAttendanceRecords = ([], true) :=
  empty_subject_skip (fun _ => true) "Maths" emptyAttendanceRecords (by decide)

/-- C10: the wide table has exactly one row per distinct
`(Roll_No, Name, Section)` triple (the key list is duplicate-free and
contains exactly the keys of the long rows); on an input with one roll
number in two sections the emitted rows are two, both with `Roll_No` value
`"1"`; yet the recreated schema declares `Roll_No` as the sole primary
key column. -/
theorem row_identity_vs_primary_key :
    (∀ rows : List LongRow, (pivotKeys rows).Nodup ∧
        ∀ k, k ∈ pivotKeys rows ↔ ∃ r ∈ rows, LongRow.key r = k) ∧
    (records_to_upload duplicateRollRecords).length = 2 ∧
    (records_to_upload duplicateRollRecords).map (fun r => r.headD ("", none))
      = [("Roll_No", some "1"), ("Roll_No", some "1")] ∧
    (columns_definitions (finalColumns (longFormat duplicateRollRecords))).filter
        (fun p => decide (p.2 = "TEXT PRIMARY KEY"))
      = [("Roll_No", "TEXT PRIMARY KEY")] := by
  refine ⟨?_, by decide, by decide, by decide⟩
  intro rows
  refine ⟨(List.perm_insertionSort keyLE _).nodup_iff.mpr (List.nodup_dedup _), ?_⟩
  intro k
  rw [pivotKeys, (List.perm_insertionSort keyLE _).mem_iff, List.mem_dedup, List.mem_map]

/-- Witness for C10: on the duplicate-roll input the key list of the wide
table is duplicate-free. -/
theorem row_identity_vs_primary_key_witness :
    (pivotKeys (longFormat duplicateRollRecords)).Nodup :=
  (row_identity_vs_primary_key.1 (longFormat duplicateRollRecords)).1

/-- Every entry of a JS object after `m[k] = v` either has key `k` or was
already present. -/
theorem insertUpdate_mem {m : List (String × Nat)} {k : String} {v : Nat} {p : String × Nat}
    (hp : p ∈ insertUpdate m k v) : p.1 = k ∨ p ∈ m := by
  unfold insertUpdate at hp
  split at hp
  · obtain ⟨q, hq, hq2⟩ := List.mem_map.mp hp
    by_cases h : q.1 = k
    · left; rw [← hq2]; simp [h]
    · right; rw [← hq2]; simp [h]; exact hq
  · rcases List.mem_append.mp hp with h | h
    · right; exact h
    · left; simp at h; rw [h]

/-- The second component of an enumerated element is an element. -/
theorem snd_mem_of_enum {l : List String} {q : Nat × String} (h : q ∈ l.enum) : q.2 ∈ l := by
  obtain ⟨hl, heq⟩ := List.getElem?_eq_some_iff.mp (List.mem_enum_iff_getElem?.mp h)
  rw [← heq]
  exact List.getElem_mem hl

/-- Invariant of the header-scan fold: every accumulated key matches the
date pattern and is the trimmed text of some header. -/
theorem dateHeaderMap_aux (headers : List String) :
    ∀ (l : List (Nat × String)) (m : List (String × Nat)),
      (∀ q ∈ l, q.2 ∈ headers) →
      (∀ p ∈ m, matchesDatePattern p.1 = true ∧ p.1 ∈ headers.map pyTrim) →
      ∀ p ∈ l.foldl
          (fun m q =>
            if matchesDatePattern (pyTrim q.2) then insertUpdate m (pyTrim q.2) q.1 else m) m,
        matchesDatePattern p.1 = true ∧ p.1 ∈ headers.map pyTrim := by
  intro l
  induction l with
  | nil => intro m _ hm p hp; exact hm p hp
  | cons q l ih =>
    intro m hl hm p hp
    simp only [List.foldl_cons] at hp
    refine ih _ (fun q1 hq1 => hl q1 (List.mem_cons_of_mem _ hq1)) ?_ p hp
    intro p1 hp1
    by_cases hq : matchesDatePattern (pyTrim q.2)
    · rw [if_pos hq] at hp1
      rcases insertUpdate_mem hp1 with h | h
      · rw [h]
        exact ⟨hq, List.mem_map_of_mem _ (hl q (List.mem_cons_self _ _))⟩
      · exact hm p1 h
    · rw [if_neg hq] at hp1
      exact hm p1 hp1

/-- Every key of the date-header map matches `DD/MM/YYYY` and is the
trimmed text of some header cell. -/
theorem dateHeaderMap_keys (headers : List String) :
    ∀ p ∈ dateHeaderMap headers, matchesDatePattern p.1 = true ∧ p.1 ∈ headers.map pyTrim := by
  intro p hp
  unfold dateHeaderMap at hp
  exact dateHeaderMap_aux headers headers.enum []
    (fun q hq => snd_mem_of_enum hq) (by simp) p hp

/-- C6: page extraction produces exactly one record per body row with at
least 2 cells (rows with fewer are skipped); every produced record comes
from such a row, taking cell 0 as the roll number and cell 1 as the
student name, both trimmed; and every date-keyed attendance entry is keyed
by the trimmed text of a header that matches `DD/MM/YYYY` exactly. -/
theorem extractPage_filtering :
    (∀ headers rows, (extractPage headers rows).length
        = (rows.filter (fun cs => decide (2 ≤ cs.length))).length) ∧
    (∀ headers rows rec1, rec1 ∈ extractPage headers rows →
        (∃ c0 c1 rest, (c0 :: c1 :: rest) ∈ rows ∧
          rec1.roll_no = pyTrim c0.text ∧ rec1.student_name = pyTrim c1.text) ∧
        (∀ p ∈ rec1.attendance_data,
          matchesDatePattern p.1 = true ∧ p.1 ∈ headers.map pyTrim)) := by
  constructor
  · intro headers rows
    induction rows with
    | nil => rfl
    | cons cs rs ih =>
      match cs with
      | [] =>
        simpa [extractPage, extractRecord, List.filterMap_cons, List.filter_cons] using ih
      | [c] =>
        simpa [extractPage, extractRecord, List.filterMap_cons, List.filter_cons] using ih
      | c0 :: c1 :: rest =>
        simpa [extractPage, extractRecord, List.filterMap_cons, List.filter_cons] using ih
  · intro headers rows rec1 hrec
    obtain ⟨cs, hcs, hex⟩ := List.mem_filterMap.mp hrec
    match cs, hex with
    | [], hex => exact absurd hex (by simp [extractRecord])
    | [c], hex => exact absurd hex (by simp [extractRecord])
    | c0 :: c1 :: rest, hex =>
      rw [extractRecord, Option.some.injEq] at hex
      subst hex
      refine ⟨⟨c0, c1, rest, hcs, rfl, rfl⟩, ?_⟩
      intro p hp
      obtain ⟨q, hq, hqp⟩ := List.mem_filterMap.mp hp
      have hfst : p.1 = q.1 := by
        cases hget : (c0 :: c1 :: rest).get? q.2 with
        | none => rw [hget] at hqp; exact absurd hqp (by simp)
        | some c =>
          rw [hget] at hqp
          have hqp2 : (q.1, classify c) = p := Option.some.inj hqp
          rw [← hqp2]
      rw [hfst]
      exact dateHeaderMap_keys headers q hq

/-- Witness for C6: on the example page, the extracted record's fields
come from the first two cells of its (well-formed) row and its only
attendance key is the trimmed, pattern-matching header. -/
theorem extractPage_filtering_witness :
    (∃ c0 c1 rest, (c0 :: c1 :: rest) ∈ exampleRows ∧
      exampleRecord.roll_no = pyTrim c0.text ∧ exampleRecord.student_name = pyTrim c1.text) ∧
    (∀ p ∈ exampleRecord.attendance_data,
      matchesDatePattern p.1 = true ∧ p.1 ∈ exampleHeaders.map pyTrim) :=
  extractPage_filtering.2 exampleHeaders exampleRows exampleRecord (by decide)

/-- C9: the classifier only ever produces the strings `"P"`, `"A"`,
`"NA"`, `"Unknown"`; every status in an extracted record is one of them;
and if every input status is in that vocabulary then every date cell of
the rows handed to the insert is either the explicit null `none` or one of
those strings — the spec-level names Present, Absent, NotApplicable are
never the stored values. -/
theorem status_vocabulary :
    (∀ cell, classify cell ∈ statusStrings) ∧
    (∀ headers rows rec1 p, rec1 ∈ extractPage headers rows → p ∈ rec1.attendance_data →
        p.2 ∈ statusStrings) ∧
    (∀ records : List UploadRecord,
        (∀ rec1 ∈ records, ∀ p ∈ rec1.attendance_data, p.2 ∈ statusStrings) →
        ∀ k d, pivotCell (longFormat records) k d = none ∨
          pivotCell (longFormat records) k d ∈ statusStrings.map some) := by
  have hclass : ∀ cell, classify cell ∈ statusStrings := by
    intro cell
    unfold classify statusStrings
    split_ifs <;> simp
  refine ⟨hclass, ?_, ?_⟩
  · intro headers rows rec1 p hrec hp
    obtain ⟨cs, hcs, hex⟩ := List.mem_filterMap.mp hrec
    match cs, hex with
    | [], hex => exact absurd hex (by simp [extractRecord])
    | [c], hex => exact absurd hex (by simp [extractRecord])
    | c0 :: c1 :: rest, hex =>
      rw [extractRecord, Option.some.injEq] at hex
      subst hex
      obtain ⟨q, _, hqp⟩ := List.mem_filterMap.mp hp
      cases hget : (c0 :: c1 :: rest).get? q.2 with
      | none => rw [hget] at hqp; exact absurd hqp (by simp)
      | some c =>
        rw [hget] at hqp
        have hqp2 : (q.1, classify c) = p := Option.some.inj hqp
        rw [← hqp2]
        exact hclass c
  · intro records hrec k d
    cases hfind : (longFormat records).find?
        (fun r => decide (r.key = k) && decide (r.Date = d)) with
    | none =>
      left
      simp [pivotCell, hfind]
    | some r =>
      right
      have hr : r ∈ longFormat records := List.mem_of_find?_eq_some hfind
      simp only [longFormat, List.mem_flatMap, List.mem_map] at hr
      obtain ⟨rec1, hrec1, p, hp, heq⟩ := hr
      have hst : r.Status = p.2 := by rw [← heq]
      simp only [pivotCell, hfind, Option.map_some]
      exact List.mem_map.mpr ⟨r.Status, hst ▸ hrec rec1 hrec1 p hp, rfl⟩

/-- Witness for C9: on a concrete subject the insert-row cell for the one
scraped (student, date) pair falls in the allowed vocabulary. -/
theorem status_vocabulary_witness :
    pivotCell (longFormat oneRecord) ("1", "X", "Section A") "01/01/2024" = none ∨
    pivotCell (longFormat oneRecord) ("1", "X", "Section A") "01/01/2024"
      ∈ statusStrings.map some :=
  status_vocabulary.2.2 oneRecord (by decide) ("1", "X", "Section A") "01/01/2024"

/-- Phase 1 always reaches page `N` from any page at or below `N`. -/
theorem seekEnd_eq : ∀ (k N cur : Nat), N - cur ≤ k → cur ≤ N → seekEnd N cur = N := by
  intro k
  induction k with
  | zero =>
    intro N cur hk hle
    have hcur : cur = N := by omega
    unfold seekEnd
    simp [hcur]
  | succ k ih =>
    intro N cur hk hle
    unfold seekEnd
    by_cases h : cur < N
    · rw [if_pos h]
      exact ih N (cur + 1) (by omega) (by omega)
    · have hcur : cur = N := by omega
      simp [hcur]

/-- Unfolding equation of `walkBack`. -/
theorem walkBack_eq {α : Type} (d : Nat → List α) (cur : Nat) :
    walkBack d cur = if 1 < cur
      then (d cur ++ (walkBack d (cur - 1)).1, cur :: (walkBack d (cur - 1)).2)
      else (d cur, [cur]) := by
  rw [walkBack.eq_def]
  by_cases h : 1 < cur
  · rw [dif_pos h, if_pos h]
  · rw [dif_neg h, if_neg h]

/-- Phase 2 starting at page `n ≥ 1` visits exactly pages `n, n-1, ..., 1`
and returns the concatenation of their extracts in that order. -/
theorem walkBack_spec {α : Type} (d : Nat → List α) :
    ∀ n, 1 ≤ n →
      (walkBack d n).2 = ((List.range n).map (fun i => i + 1)).reverse ∧
      (walkBack d n).1 = ((walkBack d n).2.map d).flatten := by
  intro n
  induction n with
  | zero => intro h; omega
  | succ m ih =>
    intro _
    by_cases hm : 1 ≤ m
    · have hlt : 1 < m + 1 := by omega
      obtain ⟨ih2, ih1⟩ := ih hm
      have hstep : walkBack d (m + 1)
          = (d (m + 1) ++ (walkBack d m).1, (m + 1) :: (walkBack d m).2) := by
        rw [walkBack_eq, if_pos hlt]
        simp
      constructor
      · rw [hstep]
        simp only [ih2, List.range_succ, List.map_append, List.reverse_append]
        rfl
      · rw [hstep]
        simp only [ih1, List.map_cons, List.flatten_cons]
    · have hm0 : m = 0 := by omega
      subst hm0
      have hstep : walkBack d 1 = (d 1, [1]) := by
        rw [walkBack_eq]
        simp
      rw [hstep]
      constructor
      · rfl
      · simp

/-- C2: on a synthetic `N`-page course landing on any page `start`,
`get_data_for_course` visits every page `1..N` exactly once and only
those, terminates at page 1, and the concatenation of the per-page
extracts it returns is a permutation of (contains exactly the records of)
the forward page-1-to-page-N concatenation. -/
theorem backward_walk_coverage {α : Type} (N start : Nat) (d : Nat → List α)
    (hN : 1 ≤ N) (_hs1 : 1 ≤ start) (hs2 : start ≤ N) :
    (∀ p, 1 ≤ p → p ≤ N → (collectCourse N d start).2.count p = 1) ∧
    (∀ p ∈ (collectCourse N d start).2, 1 ≤ p ∧ p ≤ N) ∧
    (collectCourse N d start).2.getLast? = some 1 ∧
    (collectCourse N d start).1.Perm
      (((List.range N).map (fun i => d (i + 1))).flatten) := by
  have hseek : seekEnd N start = N := seekEnd_eq (N - start) N start le_rfl hs2
  have hcc : collectCourse N d start = walkBack d N := by
    unfold collectCourse
    rw [hseek]
  obtain ⟨hvis, hrecs⟩ := walkBack_spec d N hN
  have hnodup : (walkBack d N).2.Nodup := by
    rw [hvis]
    have hinj : Function.Injective (fun i : Nat => i + 1) := fun a b h => by simpa using h
    exact List.nodup_reverse.mpr ((List.nodup_range N).map hinj)
  have hmem : ∀ p, p ∈ (walkBack d N).2 ↔ (1 ≤ p ∧ p ≤ N) := by
    intro p
    rw [hvis, List.mem_reverse, List.mem_map]
    constructor
    · rintro ⟨i, hi, rfl⟩
      have := List.mem_range.mp hi
      omega
    · rintro ⟨h1, h2⟩
      exact ⟨p - 1, List.mem_range.mpr (by omega), by omega⟩
  rw [hcc]
  refine ⟨?_, ?_, ?_, ?_⟩
  · intro p hp1 hp2
    exact List.count_eq_one_of_mem hnodup ((hmem p).mpr ⟨hp1, hp2⟩)
  · intro p hp
    exact (hmem p).mp hp
  · rw [hvis, List.getLast?_reverse, List.head?_map]
    obtain ⟨m, rfl⟩ := Nat.exists_eq_succ_of_ne_zero (by omega : N ≠ 0)
    rw [List.range_succ_eq_map]
    rfl
  · rw [hrecs]
    have hperm : (walkBack d N).2.Perm ((List.range N).map (fun i => i + 1)) := by
      rw [hvis]
      exact List.reverse_perm _
    have := (hperm.map d).flatten
    rwa [List.map_map] at this

/-- Unfolding equation of the upload loop on a nonempty subject list. -/
theorem uploadAll_cons (fail : StoreOp → Bool) (n : String) (records : List UploadRecord)
    (rest : List (String × List UploadRecord)) :
    uploadAll fail ((n, records) :: rest)
      = match upload_to_supabase fail n records with
        | (ops, true) => (ops ++ (uploadAll fail rest).1, (uploadAll fail rest).2)
        | (ops, false) => (ops, false) := rfl

/-- Counterexample to C1 as stated: with subjects `A` then `B` and a store
that fails creating `A`'s table, `A`'s schema recreation fails (the error
propagates out of its upload), and the run attempts NO operation on `B`'s
table `b` — subject B is not attempted, contradicting the claim that every
subject processed after the failing one is still attempted. -/
theorem publish_schema_failure_not_isolated :
    (upload_to_supabase schemaFailOracle "A" oneRecord).2 = false ∧
    sanitize_table_name "B" = "b" ∧
    uploadAll schemaFailOracle twoSubjects
      = ([StoreOp.dropTable "a", StoreOp.createTable "a"], false) ∧
    ∀ op ∈ (uploadAll schemaFailOracle twoSubjects).1, StoreOp.table op ≠ "b" := by
  refine ⟨by decide, by decide, by decide, by decide⟩

/-- C1 amended: a failure while recreating a subject's schema (drop,
create, RLS or policy) makes its upload raise (the error is propagated,
not swallowed) and the insert for that subject is never attempted; a
failure during row insertion after successful schema recreation is caught,
so the subject's upload returns normally; but the per-subject loop runs
inside one run-level try, so a subject whose upload raises aborts the loop
— its trace is final and later subjects are not attempted — while subjects
after an insert-only failure are still attempted. -/
theorem publish_failure_semantics (fail : StoreOp → Bool) (n : String)
    (records : List UploadRecord) (rest : List (String × List UploadRecord)) :
    ((recreate_table_for_upload fail (sanitize_table_name n)).2 = false →
      records.isEmpty = false → (longFormat records).isEmpty = false →
      (upload_to_supabase fail n records).2 = false ∧
      StoreOp.insertRows (sanitize_table_name n) ∉ (upload_to_supabase fail n records).1) ∧
    ((recreate_table_for_upload fail (sanitize_table_name n)).2 = true →
      (upload_to_supabase fail n records).2 = true) ∧
    ((upload_to_supabase fail n records).2 = false →
      uploadAll fail ((n, records) :: rest)
        = ((upload_to_supabase fail n records).1, false)) ∧
    ((upload_to_supabase fail n records).2 = true →
      uploadAll fail ((n, records) :: rest)
        = ((upload_to_supabase fail n records).1 ++ (uploadAll fail rest).1,
           (uploadAll fail rest).2)) := by
  refine ⟨?_, ?_, ?_, ?_⟩
  · intro hrec hne hlne
    unfold upload_to_supabase
    rw [hne, hlne]
    simp only [Bool.false_eq_true, if_false]
    cases hr : recreate_table_for_upload fail (sanitize_table_name n) with
    | mk ops ok =>
      rw [hr] at hrec
      simp only at hrec
      subst hrec
      constructor
      · rfl
      · have hops : ∀ op ∈ ops, op ≠ StoreOp.insertRows (sanitize_table_name n) := by
          revert hr
          unfold recreate_table_for_upload
          split_ifs <;> intro hr <;> rw [Prod.mk.injEq] at hr <;>
            rcases hr with ⟨h1, h2⟩ <;> rw [← h1] <;> intro op hop <;>
            fin_cases hop <;> simp
        intro hmem
        exact hops _ hmem rfl
  · intro hrec
    unfold upload_to_supabase
    by_cases he : records.isEmpty <;> by_cases hle : (longFormat records).isEmpty <;>
      simp only [he, hle, if_true, if_false]
    all_goals try rfl
    all_goals cases hr : recreate_table_for_upload fail (sanitize_table_name n) with
      | mk ops ok =>
        rw [hr] at hrec
        simp only at hrec
        subst hrec
        rfl
  · intro hup
    cases hu : upload_to_supabase fail n records with
    | mk ops ok =>
      rw [hu] at hup
      simp only at hup
      subst hup
      rw [uploadAll_cons, hu]
  · intro hup
    cases hu : upload_to_supabase fail n records with
    | mk ops ok =>
      rw [hu] at hup
      simp only at hup
      subst hup
      rw [uploadAll_cons, hu]

/-- Witness for C1 amended: a subject whose store never fails continues
into the rest of the loop. -/
theorem publish_failure_semantics_witness :
    uploadAll (fun _ => false) [("B", oneRecord)]
      = ((upload_to_supabase (fun _ => false) "B" oneRecord).1
          ++ (uploadAll (fun _ => false) ([] : List (String × List UploadRecord))).1,
         (uploadAll (fun _ => false) ([] : List (String × List UploadRecord))).2) :=
  (publish_failure_semantics (fun _ => false) "B" oneRecord []).2.2.2 (by decide)

/-- Witness for C2: a 3-page course landing on page 2; after seeking to
page 3 the walk visits 3, 2, 1, ends at page 1, and returns a permutation
of the forward concatenation. -/
theorem backward_walk_coverage_witness :
    (collectCourse 3 (fun i => [10 * i]) 2).2.count 2 = 1 ∧
    (collectCourse 3 (fun i => [10 * i]) 2).2.getLast? = some 1 ∧
    (collectCourse 3 (fun i => [10 * i]) 2).1.Perm
      (((List.range 3).map (fun i => (fun j => [10 * j]) (i + 1))).flatten) := by
  have h := backward_walk_coverage 3 2 (fun i => [10 * i])
    (by decide) (by decide) (by decide)
  exact ⟨h.1 2 (by decide) (by decide), h.2.2.1, h.2.2.2⟩

end Scraper
